import Mathlib

/-!
# LoRa → FIWARE Orion receiver (`src/main.cpp`)

A shallow embedding of the receiver sketch: the message parser
`extractSensorData`, the encoder `createUpdatePayload`, the synchronisation
routine `sendToOrion` and the state machine `loop`, followed by the theorems
about them.

Conventions.

* An Arduino `String` is the list of its `len()` characters (`Str`), which may
  include NUL: `loop` appends every byte the radio delivers. The `String`
  operations are those of the ESP32 Arduino core; `substring` and `trim` work
  on the length, while the C functions reached through `buffer()` (`strstr`,
  `atof`) read up to the first NUL only (`cstr`).
* A `float` is an IEEE-754 binary32 datum, a `double` a binary64 datum; both
  are values of `Fp` (a signed dyadic number, an infinity or NaN).
* Everything the sketch obtains from the outside world during one pass of
  `loop` (radio, WiFi status, HTTP responses) is a field of `Env`.
-/

namespace Receptor

/-! ## Arduino `String` operations used by the sketch -/

/-- The contents of an Arduino `String`. -/
abbrev Str := List Char

/-- C `isspace` in the "C" locale: space, `\t`, `\n`, `\v`, `\f`, `\r`. -/
def isSpace (c : Char) : Bool :=
  c = ' ' || c = Char.ofNat 9 || c = Char.ofNat 10 || c = Char.ofNat 11 ||
    c = Char.ofNat 12 || c = Char.ofNat 13

/-- The NUL character, which ends a C string. -/
def nul : Char := Char.ofNat 0

/-- The C string held in a buffer: the characters before the first NUL. -/
def cstr (s : Str) : Str := s.takeWhile (fun c => c != nul)

/-- Offset of the first occurrence of `needle` in a text. -/
def findFirst : Str → Str → Option Nat
  | [], needle => if needle.isEmpty then some 0 else none
  | c :: s, needle =>
    if needle.isPrefixOf (c :: s) then some 0 else (findFirst s needle).map (· + 1)

/-- C `strstr`: offset of the first occurrence of the C string `needle` in the
C string `haystack`; nothing behind the first NUL is looked at. -/
def strstr (haystack needle : Str) : Option Nat :=
  findFirst (cstr haystack) (cstr needle)

/-- Arduino `String::indexOf(s2)`, i.e. `indexOf(s2, 0)`: `-1` when the start
index is not below the length or `strstr` finds nothing, else the offset
found. -/
def indexOf (s s2 : Str) : Int :=
  if s.length ≤ 0 then -1
  else
    match strstr s s2 with
    | none => -1
    | some i => (i : Int)

/-- Arduino `String::substring(left, right)`: the bounds are swapped when
`left > right`, the result is empty when `left` is not below the length, and
`right` is clamped to the length; the characters are copied by count. -/
def substring (s : Str) (left right : Nat) : Str :=
  let l := if left > right then right else left
  let r := if left > right then left else right
  if l ≥ s.length then []
  else
    let r := if r > s.length then s.length else r
    (s.drop l).take (r - l)

/-- Arduino `String::substring(beginIndex)` is `substring(beginIndex, len())`. -/
def substringFrom (s : Str) (beginIndex : Nat) : Str :=
  substring s beginIndex s.length

/-- Arduino `String::trim()`: leading and trailing `isspace` characters are
removed. -/
def trim (s : Str) : Str :=
  ((s.dropWhile isSpace).reverse.dropWhile isSpace).reverse

/-- Scan of `String::replace`: the number counts the characters of the
occurrence of `find` just matched that are still to be passed over. -/
def replaceAux (find repl : Str) : Nat → Str → Str
  | _, [] => []
  | k + 1, _ :: s => replaceAux find repl k s
  | 0, c :: s =>
    if find.isPrefixOf (c :: s) then repl ++ replaceAux find repl (find.length - 1) s
    else c :: replaceAux find repl 0 s

/-- Arduino `String::replace(find, replace)` on a text that holds no NUL: every
occurrence of `find`, scanning from the left, becomes `replace`; nothing
happens when either the text or `find` is empty. `extractSensorData` calls it
on such texts only (`replace_arguments_nul_free`). -/
def replace (s find repl : Str) : Str :=
  if s.length = 0 ∨ find.length = 0 then s else replaceAux find repl 0 s

/-! ## Floating-point data -/

/-- An IEEE-754 binary datum: `fin neg m e` is `(-1)^neg · m · 2^e` with `m`
odd, or `m = 0` and `e = 0` for a (signed) zero. -/
inductive Fp
  | fin (neg : Bool) (m : Nat) (e : Int)
  | inf (neg : Bool)
  | nan
  deriving DecidableEq, Repr

/-- The C comparison `x != 0.0`: false exactly for the two zeros. -/
def Fp.ne0 : Fp → Bool
  | .fin _ m _ => m != 0
  | _ => true

/-- The C comparison `x == 0.0`. -/
def Fp.isZero (x : Fp) : Bool := !x.ne0

/-- Strip up to `fuel` trailing zero bits from a significand. -/
def stripZeros : Nat → Nat → Int → Nat × Int
  | 0, m, e => (m, e)
  | k + 1, m, e => if m ≠ 0 ∧ m % 2 = 0 then stripZeros k (m / 2) (e + 1) else (m, e)

/-- Number of bits of `n`, counted with at most `fuel` halvings. -/
def bitLenAux : Nat → Nat → Nat
  | 0, _ => 0
  | f + 1, n => if n = 0 then 0 else bitLenAux f (n / 2) + 1

/-- Position of the leading bit of `n`: the integer part of its binary
logarithm (`0` for `n = 0`). -/
def ilog2 (n : Nat) : Nat := bitLenAux n n - 1

/-- Round-to-nearest, ties-to-even, of the non-negative rational `num / den`
to the binary format with `p` significand bits, least exponent `emin` of the
last place and largest exponent `emax` of the leading bit; overflow gives an
infinity, underflow a subnormal or a zero. -/
def roundNearestEven (p : Nat) (emin emax : Int) (neg : Bool) (num den : Nat) : Fp :=
  if num = 0 ∨ den = 0 then .fin neg 0 0
  else
    let d : Int := (ilog2 num : Int) - (ilog2 den : Int)
    -- exponent of the leading bit of num / den
    let k : Int :=
      if d ≥ 0 then (if num ≥ den * 2 ^ d.toNat then d else d - 1)
      else (if num * 2 ^ (-d).toNat ≥ den then d else d - 1)
    let e : Int := max (k - (p - 1)) emin
    let n := if e ≥ 0 then num else num * 2 ^ (-e).toNat
    let dd := if e ≥ 0 then den * 2 ^ e.toNat else den
    let q := n / dd
    let r := n % dd
    let q := if 2 * r > dd ∨ (2 * r = dd ∧ q % 2 = 1) then q + 1 else q
    if q = 0 then .fin neg 0 0
    else if (ilog2 q : Int) + e > emax then .inf neg
    else
      let me := stripZeros p q e
      .fin neg me.1 me.2

/-- Conversion of a rational to `double` (binary64). -/
def toDouble (neg : Bool) (num den : Nat) : Fp :=
  roundNearestEven 53 (-1074) 1023 neg num den

/-- The C conversion `(float) d` of a `double` to binary32. -/
def doubleToFloat : Fp → Fp
  | .fin neg m e =>
    if e ≥ 0 then roundNearestEven 24 (-149) 127 neg (m * 2 ^ e.toNat) 1
    else roundNearestEven 24 (-149) 127 neg m (2 ^ (-e).toNat)
  | x => x

/-! ## `atof` (newlib `strtod`) and `String::toFloat` -/

/-- Value of a decimal digit character. -/
def digitVal (c : Char) : Nat := c.toNat - 48

/-- Value of a hexadecimal digit character, if it is one. -/
def hexVal (c : Char) : Option Nat :=
  if c.isDigit then some (c.toNat - 48)
  else if 'a' ≤ c ∧ c ≤ 'f' then some (c.toNat - 87)
  else if 'A' ≤ c ∧ c ≤ 'F' then some (c.toNat - 55)
  else none

/-- Consume a run of decimal digits: the accumulated value, the number of
digits consumed and the rest of the text. -/
def scanDigits : Str → Nat → Nat → Nat × Nat × Str
  | [], acc, n => (acc, n, [])
  | c :: s, acc, n =>
    if c.isDigit then scanDigits s (acc * 10 + digitVal c) (n + 1) else (acc, n, c :: s)

/-- Consume a run of hexadecimal digits, as `scanDigits` does. -/
def scanHex : Str → Nat → Nat → Nat × Nat × Str
  | [], acc, n => (acc, n, [])
  | c :: s, acc, n =>
    match hexVal c with
    | some v => scanHex s (acc * 16 + v) (n + 1)
    | none => (acc, n, c :: s)

/-- An optional sign: whether it is `-`, and the rest of the text. -/
def scanSign : Str → Bool × Str
  | '-' :: s => (true, s)
  | '+' :: s => (false, s)
  | s => (false, s)

/-- An optional exponent part introduced by one of the two `marks`: its sign
and magnitude. The part counts only when at least one digit follows. -/
def scanExponent (marks : Char × Char) : Str → Bool × Nat
  | [] => (false, 0)
  | c :: s =>
    if c = marks.1 ∨ c = marks.2 then
      let sg := scanSign s
      let ds := scanDigits sg.2 0 0
      if ds.2.1 = 0 then (false, 0) else (sg.1, ds.1)
    else (false, 0)

/-- Case-insensitive test that the text starts with the lower-case `word`. -/
def startsWithCI (word s : Str) : Bool :=
  word.isPrefixOf (s.map Char.toLower)

/-- The hexadecimal form of `strtod`, entered after `0x`: hexadecimal digits
with an optional point and an optional binary exponent `p`. -/
def strtodHex (neg : Bool) (s : Str) : Fp :=
  let ip := scanHex s 0 0
  let fp := match ip.2.2 with
    | '.' :: t => scanHex t ip.1 0
    | _ => (ip.1, 0, ip.2.2)
  if ip.2.1 + fp.2.1 = 0 then .fin neg 0 0
  else
    let ex := scanExponent ('p', 'P') fp.2.2
    let down := 4 * fp.2.1 + (if ex.1 then ex.2 else 0)
    let up := if ex.1 then 0 else ex.2
    toDouble neg (fp.1 * 2 ^ up) (2 ^ down)

/-- The decimal form of `strtod`: digits with an optional point and an
optional decimal exponent; with no digit at all nothing is converted and the
result is `0.0`. -/
def strtodDec (neg : Bool) (s : Str) : Fp :=
  let ip := scanDigits s 0 0
  let fp := match ip.2.2 with
    | '.' :: t => scanDigits t ip.1 0
    | _ => (ip.1, 0, ip.2.2)
  if ip.2.1 + fp.2.1 = 0 then
    (if startsWithCI ['i', 'n', 'f'] s then .inf neg
     else if startsWithCI ['n', 'a', 'n'] s then .nan
     else .fin false 0 0)
  else
    let ex := scanExponent ('e', 'E') fp.2.2
    let down := fp.2.1 + (if ex.1 then ex.2 else 0)
    let up := if ex.1 then 0 else ex.2
    toDouble neg (fp.1 * 10 ^ up) (10 ^ down)

/-- C `atof`, that is `strtod(s, NULL)`, of the C string in the buffer: leading
white space and an optional sign are skipped, then the longest numeric prefix
is converted, correctly rounded, to a `double`; text with no numeric prefix
gives `0.0`. -/
def atof (s : Str) : Fp :=
  let sg := scanSign ((cstr s).dropWhile isSpace)
  match sg.2 with
  | '0' :: 'x' :: t => strtodHex sg.1 t
  | '0' :: 'X' :: t => strtodHex sg.1 t
  | t => strtodDec sg.1 t

/-- Arduino `String::toFloat()`: `atof(buffer())`, converted to `float`. -/
def toFloat (s : Str) : Fp := doubleToFloat (atof s)

/-! ## `String(float, decimalPlaces)` and `dtostrf` -/

/-- The magnitude `m · 2^e` as a fraction: numerator and denominator. -/
def fracOf (m : Nat) (e : Int) : Nat × Nat :=
  if e ≥ 0 then (m * 2 ^ e.toNat, 1) else (m, 2 ^ (-e).toNat)

/-- The `double` product of two non-negative data. -/
def dmul : Fp → Fp → Fp
  | .fin _ ma ea, .fin _ mb eb =>
    toDouble false ((fracOf ma ea).1 * (fracOf mb eb).1) ((fracOf ma ea).2 * (fracOf mb eb).2)
  | .inf _, .fin _ mb _ => if mb = 0 then .nan else .inf false
  | .fin _ ma _, .inf _ => if ma = 0 then .nan else .inf false
  | .inf _, .inf _ => .inf false
  | _, _ => .nan

/-- The `double` quotient of two non-negative data. -/
def ddiv : Fp → Fp → Fp
  | .fin _ ma ea, .fin _ mb eb =>
    if mb = 0 then (if ma = 0 then .nan else .inf false)
    else toDouble false ((fracOf ma ea).1 * (fracOf mb eb).2) ((fracOf ma ea).2 * (fracOf mb eb).1)
  | .fin _ _ _, .inf _ => .fin false 0 0
  | .inf _, .fin _ _ _ => .inf false
  | _, _ => .nan

/-- The `double` sum of two non-negative data. -/
def dadd : Fp → Fp → Fp
  | .fin _ ma ea, .fin _ mb eb =>
    toDouble false ((fracOf ma ea).1 * (fracOf mb eb).2 + (fracOf mb eb).1 * (fracOf ma ea).2)
      ((fracOf ma ea).2 * (fracOf mb eb).2)
  | .nan, _ => .nan
  | _, .nan => .nan
  | _, _ => .inf false

/-- The `double` difference `a - b` of two non-negative data with `b ≤ a`. -/
def dsub : Fp → Fp → Fp
  | .fin _ ma ea, .fin _ mb eb =>
    toDouble false ((fracOf ma ea).1 * (fracOf mb eb).2 - (fracOf mb eb).1 * (fracOf ma ea).2)
      ((fracOf ma ea).2 * (fracOf mb eb).2)
  | .inf _, .fin _ _ _ => .inf false
  | _, _ => .nan

/-- The comparison `a >= b` of two non-negative data. -/
def dge : Fp → Fp → Bool
  | .fin _ ma ea, .fin _ mb eb =>
    decide ((fracOf mb eb).1 * (fracOf ma ea).2 ≤ (fracOf ma ea).1 * (fracOf mb eb).2)
  | .inf _, .fin _ _ _ => true
  | .inf _, .inf _ => true
  | _, _ => false

/-- The conversion `(int8_t) number` of a non-negative datum below 128: its
integer part. -/
def truncNat : Fp → Nat
  | .fin _ m e => (fracOf m e).1 / (fracOf m e).2
  | _ => 0

/-- The `double` with the value of a small natural number. -/
def dnat (n : Nat) : Fp := toDouble false n 1

/-- The loop of `dtostrf` that computes `2.0 * 10^prec` by `rounding *= 10.0`. -/
def dtostrfRounding : Nat → Fp → Fp
  | 0, rounding => rounding
  | k + 1, rounding => dtostrfRounding k (dmul rounding (dnat 10))

/-- The loop `while (number >= 10.0 * tenpow) { tenpow *= 10.0; digitcount++; }`
of `dtostrf`, which yields `tenpow` and `digitcount`. The first argument bounds
the number of rounds; the loop stops by itself within 310 rounds, when
`10.0 * tenpow` overflows. -/
def dtostrfSize (number : Fp) : Nat → Fp → Nat → Fp × Nat
  | 0, tenpow, digitcount => (tenpow, digitcount)
  | fuel + 1, tenpow, digitcount =>
    if dge number (dmul (dnat 10) tenpow) then
      dtostrfSize number fuel (dmul tenpow (dnat 10)) (digitcount + 1)
    else (tenpow, digitcount)

/-- The loop of `dtostrf` that prints `digitcount` digits of `number`, with the
point in front of the last `prec` of them: the digit is the integer part (at
most 9), then `number -= digit; number *= 10.0`. -/
def dtostrfDigits (prec : Nat) : Nat → Fp → Str
  | 0, _ => []
  | k + 1, number =>
    let digit := min (truncNat number) 9
    let rest := dtostrfDigits prec k (dmul (dsub number (dnat digit)) (dnat 10))
    Char.ofNat (48 + digit) :: (if k = prec ∧ prec > 0 then '.' :: rest else rest)

/-- The function `dtostrf(number, width, prec, s)` of the ESP32 Arduino core,
computed in `double` arithmetic as the core does: `nan` and `inf` first; then
`0.5 · 10^-prec` is added to the magnitude and the digits are cut off; the
text is padded with spaces on the left up to `width`. -/
def dtostrf (number : Fp) (width : Int) (prec : Nat) : Str :=
  match number with
  | .nan => ['n', 'a', 'n']
  | .inf _ => ['i', 'n', 'f']
  | .fin neg m e =>
    let fillme : Int := if prec > 0 then width - (prec + 1) else width
    let negative : Bool := neg && m != 0
    let fillme : Int := if negative then fillme - 1 else fillme
    let rounding := ddiv (dnat 1) (dtostrfRounding prec (dnat 2))
    let number := dadd (.fin false m e) rounding
    let size := dtostrfSize number 400 (dnat 1) 1
    let number := ddiv number size.1
    let fillme : Int := fillme - size.2
    List.replicate fillme.toNat ' ' ++ (if negative then ['-'] else []) ++
      dtostrfDigits prec (size.2 + prec) number

/-- Arduino `String(value, decimalPlaces)`, which is
`dtostrf(value, decimalPlaces + 2, decimalPlaces, buf)`; the `float` is
converted to `double` without change. -/
def floatToString (value : Fp) (decimalPlaces : Nat) : Str :=
  dtostrf value (decimalPlaces + 2) decimalPlaces

/-! ## `extractSensorData` -/

/-- The literal `"Lat:"`. -/
def labelLat : Str := ['L', 'a', 't', ':']
/-- The literal `"Lon:"`. -/
def labelLon : Str := ['L', 'o', 'n', ':']
/-- The literal `"Temp:"`. -/
def labelTemp : Str := ['T', 'e', 'm', 'p', ':']
/-- The literal `"Hum:"`. -/
def labelHum : Str := ['H', 'u', 'm', ':']

/-- The text `latStr` on which `toFloat` is called: the substring between
`latIndex + 4` and `lonIndex`, trimmed, with `replace(",", "")` applied. The
`int` indices are passed to `unsigned int` parameters; they are non-negative
wherever this text is used. -/
def latStr (message : Str) : Str :=
  replace (trim (substring message (indexOf message labelLat + 4).toNat
    (indexOf message labelLon).toNat)) [','] []

/-- The text `lonStr`: between `lonIndex + 4` and `tempIndex`, trimmed, commas
replaced by nothing. -/
def lonStr (message : Str) : Str :=
  replace (trim (substring message (indexOf message labelLon + 4).toNat
    (indexOf message labelTemp).toNat)) [','] []

/-- The text `tempStr`: between `tempIndex + 5` and `humIndex`, trimmed, commas
replaced by nothing. -/
def tempStr (message : Str) : Str :=
  replace (trim (substring message (indexOf message labelTemp + 5).toNat
    (indexOf message labelHum).toNat)) [','] []

/-- The text `humStr`: from `humIndex + 4` to the end, trimmed (no `replace`). -/
def humStr (message : Str) : Str :=
  trim (substringFrom message (indexOf message labelHum + 4).toNat)

/-- Result of a call of `extractSensorData`: the returned flag and the
contents of the four reference parameters after the call. -/
structure Extracted where
  ok : Bool
  lat : Fp
  lon : Fp
  temp : Fp
  hum : Fp
  deriving DecidableEq, Repr

/-- The function `bool extractSensorData(String message, float &lat, float &lon,
float &temp, float &hum)`; the last four arguments are the contents of the
reference parameters before the call. -/
def extractSensorData (message : Str) (lat lon temp hum : Fp) : Extracted :=
  let latIndex := indexOf message labelLat
  let lonIndex := indexOf message labelLon
  let tempIndex := indexOf message labelTemp
  let humIndex := indexOf message labelHum
  if latIndex = -1 ∨ lonIndex = -1 ∨ tempIndex = -1 ∨ humIndex = -1 then
    { ok := false, lat := lat, lon := lon, temp := temp, hum := hum }
  else
    let lat := toFloat (latStr message)
    let lon := toFloat (lonStr message)
    let temp := toFloat (tempStr message)
    let hum := toFloat (humStr message)
    { ok := lat.ne0 && lon.ne0, lat := lat, lon := lon, temp := temp, hum := hum }

/-! ## JSON documents and `createUpdatePayload` -/

/-- A JSON value as the sketch builds it with ArduinoJson. `unbound` is a
default-constructed `JsonObject()`, which refers to no document. -/
inductive Json
  | null
  | str (s : Str)
  | num (x : Fp)
  | obj (members : List (Str × Json))
  | unbound

/-- Lookup in a list of object members. -/
def lookup (key : Str) : List (Str × Json) → Json
  | [] => .null
  | (k, v) :: rest => if k = key then v else lookup key rest

/-- Member access `doc[key]` for reading: `null` when there is no such member. -/
def Json.get (key : Str) : Json → Json
  | .obj members => lookup key members
  | _ => .null

/-- The ArduinoJson library, which is not part of the repository: its
serialiser and parser are parameters of the model. A serialised document is
never the empty text (the least output is `null`). -/
structure ArduinoJson where
  serializeJson : Json → Str
  deserializeJson : Str → Json
  serialize_ne : ∀ d, serializeJson d ≠ []

/-- One attribute object: `type`, `value` and `metadata = JsonObject()`. -/
def attributeObj (type : Str) (value : Json) : Json :=
  .obj [("type".toList, .str type), ("value".toList, value), ("metadata".toList, .unbound)]

/-- The `location` value: `String(lat, 6) + "," + String(lon, 6)`. -/
def locationValue (lat lon : Fp) : Str :=
  floatToString lat 6 ++ [','] ++ floatToString lon 6

/-- The document `doc` that `createUpdatePayload` builds. -/
def createUpdateDoc (lat lon temp hum : Fp) : Json :=
  .obj [("humedad".toList, attributeObj "float".toList (.num hum)),
        ("temperatura".toList, attributeObj "float".toList (.num temp)),
        ("location".toList, attributeObj "geo:point".toList (.str (locationValue lat lon)))]

/-- The function `String createUpdatePayload(float lat, float lon, float temp, float hum)`. -/
def createUpdatePayload (lib : ArduinoJson) (lat lon temp hum : Fp) : Str :=
  lib.serializeJson (createUpdateDoc lat lon temp hum)

/-! ## `sendToOrion` -/

/-- The constant `orionURL`. -/
def orionURL : Str := "http://10.199.26.8:1026/v2/entities".toList

/-- The constant `sensorId`. -/
def sensorId : Str := "sensor001".toList

/-- The local `updateURL`: `String(orionURL) + "/" + sensorId + "/attrs"`. -/
def updateURL : Str := orionURL ++ ['/'] ++ sensorId ++ "/attrs".toList

/-- The calls made on the global `HTTPClient http`. -/
inductive HttpCall
  | begin (url : Str)
  | addHeader (name value : Str)
  | PATCH (payload : Str)
  | POST (payload : Str)
  | getString
  | finish
  deriving DecidableEq, Repr

/-- What the transport answers: the status returned by `http.PATCH` and by
`http.POST` for a given URL and body, and the body read by `http.getString`. -/
structure Http where
  patchStatus : Str → Str → Int
  postStatus : Str → Str → Int
  response : Str

/-- The document `entityDoc` built on the creation path from the parsed
update document. -/
def createEntityDoc (updateDoc : Json) : Json :=
  .obj [("id".toList, .str sensorId),
        ("type".toList, .str "sensorTempHum".toList),
        ("humedad".toList,
          attributeObj "float".toList ((updateDoc.get "humedad".toList).get "value".toList)),
        ("temperatura".toList,
          attributeObj "float".toList ((updateDoc.get "temperatura".toList).get "value".toList)),
        ("location".toList,
          attributeObj "geo:point".toList ((updateDoc.get "location".toList).get "value".toList))]

/-- The text `entityJson` posted on the creation path. -/
def entityJson (lib : ArduinoJson) (updatePayload : Str) : Str :=
  lib.serializeJson (createEntityDoc (lib.deserializeJson updatePayload))

/-- The calls on `http` up to and including the PATCH. -/
def patchCalls (updatePayload : Str) : List HttpCall :=
  [.begin updateURL,
   .addHeader "Content-Type".toList "application/json".toList,
   .addHeader "User-Agent".toList "TTGO-LoRa-FIWARE/1.0".toList,
   .PATCH updatePayload]

/-- The function `bool sendToOrion(String updatePayload)`: the returned flag and the calls
made on `http`, in order. -/
def sendToOrion (lib : ArduinoJson) (http : Http) (updatePayload : Str) :
    Bool × List HttpCall :=
  let httpResponseCode := http.patchStatus updateURL updatePayload
  if httpResponseCode = 204 then
    (true, patchCalls updatePayload ++ [.finish])
  else if httpResponseCode = 404 then
    let body := entityJson lib updatePayload
    let calls := patchCalls updatePayload ++
      [.begin orionURL, .addHeader "Content-Type".toList "application/json".toList,
       .POST body, .finish]
    let httpResponseCode := http.postStatus orionURL body
    if httpResponseCode = 201 then (true, calls) else (false, calls)
  else
    (false, patchCalls updatePayload ++ [.getString, .finish])

/-- An HTTP request method used by the sketch. -/
inductive Method
  | patch
  | post
  deriving DecidableEq, Repr

/-- A request put on the wire: method, URL and body. -/
structure Request where
  method : Method
  url : Str
  body : Str
  deriving DecidableEq, Repr

/-- The requests issued by a sequence of calls on `http`; `url` is the URL of
the latest `begin`. Reading the response with `getString` is no request. -/
def requestsFrom : Str → List HttpCall → List Request
  | _, [] => []
  | _, .begin u :: cs => requestsFrom u cs
  | url, .PATCH b :: cs => ⟨.patch, url, b⟩ :: requestsFrom url cs
  | url, .POST b :: cs => ⟨.post, url, b⟩ :: requestsFrom url cs
  | url, _ :: cs => requestsFrom url cs

/-- The requests issued by a sequence of calls on a fresh `http`. -/
def requests (calls : List HttpCall) : List Request := requestsFrom [] calls

/-! ## `connectWiFi` and `loop` -/

/-- The waiting loop of `connectWiFi`: `left` is `20 - attempts`, `i` the
number of `WiFi.status()` readings taken so far in this pass; the result is
that number when the loop exits. The status is read before `attempts` is
compared. -/
def connectWiFiWait (wifi : Nat → Bool) : Nat → Nat → Nat
  | 0, i => i + 1
  | k + 1, i => if wifi i then i + 1 else connectWiFiWait wifi k (i + 1)

/-- The function `void connectWiFi()`: the waiting loop, then one more reading of the
status to report the outcome. Returns the number of readings taken so far. -/
def connectWiFi (wifi : Nat → Bool) (i : Nat) : Nat :=
  connectWiFiWait wifi 20 i + 1

/-- What the outside world does during one pass of `loop`: the value of
`LoRa.parsePacket()`, the bytes delivered by `LoRa.read()` while
`LoRa.available()`, the successive readings of `WiFi.status() == WL_CONNECTED`
and the answers of the HTTP transport. -/
structure Env where
  packetSize : Int
  bytes : Str
  wifi : Nat → Bool
  http : Http

/-- The globals `state` and `output`. -/
structure Machine where
  state : Int
  output : Str
  deriving DecidableEq, Repr

/-- The globals at start-up: `int state = 1; String output;`. -/
def Machine.init : Machine := { state := 1, output := [] }

/-- The calls of the sketch's own routines made during a pass of `loop`. -/
inductive Call
  | connectWiFi
  | sendToOrion (updatePayload : Str) (result : Bool × List HttpCall)
  deriving DecidableEq, Repr

/-- The float literal `0.0`. -/
def zero : Fp := .fin false 0 0

/-- One pass of `void loop()`: the globals afterwards and the calls of
`connectWiFi` and `sendToOrion` made, in order. Serial output, the LED and the
delays are left out. -/
def loop (lib : ArduinoJson) (env : Env) (m : Machine) : Machine × List Call :=
  if m.state = 1 then
    if env.packetSize ≠ 0 then
      let mensaje := env.bytes
      let r := extractSensorData mensaje zero zero zero zero
      if r.ok then
        ({ state := 2, output := createUpdatePayload lib r.lat r.lon r.temp r.hum }, [])
      else
        ({ m with state := 3 }, [])
    else (m, [])
  else if m.state = 2 then
    let up := env.wifi 0
    let reconnect : List Call := if up then [] else [.connectWiFi]
    let i := if up then 1 else connectWiFi env.wifi 1
    if env.wifi i then
      ({ m with state := 3 },
        reconnect ++ [.sendToOrion m.output (sendToOrion lib env.http m.output)])
    else
      ({ m with state := 3 }, reconnect)
  else if m.state = 3 then
    ({ m with state := 1 }, [])
  else
    ({ m with state := 1 }, [])

/-- Whether a call is a call of `sendToOrion`. -/
def Call.isSend : Call → Bool
  | .sendToOrion _ _ => true
  | .connectWiFi => false

/-- Whether a call is a call of `connectWiFi`. -/
def Call.isReconnect : Call → Bool
  | .connectWiFi => true
  | .sendToOrion _ _ => false

/-- The globals after the passes of `loop` driven by `envs`, from `m`. -/
def run (lib : ArduinoJson) : List Env → Machine → Machine
  | [], m => m
  | env :: envs, m => run lib envs (loop lib env m).1

/-- The calls made during the passes of `loop` driven by `envs`, from `m`. -/
def runCalls (lib : ArduinoJson) : List Env → Machine → List Call
  | [], _ => []
  | env :: envs, m => (loop lib env m).2 ++ runCalls lib envs (loop lib env m).1

/-! ## A plain instance of the JSON library interface

Used to evaluate the model on concrete inputs. -/

mutual
/-- Minified JSON text of a value; numbers are written by `fmt`, an unbound
object as `null`. -/
def serialize (fmt : Fp → Str) : Json → Str
  | .null => "null".toList
  | .unbound => "null".toList
  | .str s => '"' :: s ++ ['"']
  | .num x => fmt x
  | .obj ms => Char.ofNat 123 :: serializeMembers fmt ms ++ [Char.ofNat 125]
/-- Minified JSON text of the members of an object. -/
def serializeMembers (fmt : Fp → Str) : List (Str × Json) → Str
  | [] => []
  | [(k, v)] => '"' :: k ++ ['"', ':'] ++ serialize fmt v
  | (k, v) :: m :: ms =>
    '"' :: k ++ ['"', ':'] ++ serialize fmt v ++ [','] ++ serializeMembers fmt (m :: ms)
end

/-- An instance of the library interface: minified output with numbers in
fixed notation, and a parser that yields the null document. -/
def plainJson : ArduinoJson where
  serializeJson := serialize (fun x => floatToString x 6)
  deserializeJson := fun _ => .null
  serialize_ne := by
    intro d
    cases d with
    | num x => cases x <;> simp [serialize, floatToString, dtostrf, dtostrfDigits]
    | _ => simp [serialize]

/-! ## Environments used in the examples -/

/-- The transport that answers 204 to every PATCH and 201 to every POST. -/
def httpOk : Http :=
  { patchStatus := fun _ _ => 204, postStatus := fun _ _ => 201, response := [] }

/-- A pass in which no packet arrives and the WiFi status never reads
connected. -/
def envWifiDown : Env :=
  { packetSize := 0, bytes := [], wifi := fun _ => false, http := httpOk }

/-- A pass in which no packet arrives and the WiFi status reads down at first
and connected from the fourth reading on. -/
def envReconnects : Env :=
  { packetSize := 0, bytes := [], wifi := fun i => decide (3 ≤ i), http := httpOk }

/-- A pass in which the packet `"Lat: 1.5, Lon: 2, Temp: 3, Hum: 4"` arrives
and the WiFi is up. -/
def envPacket : Env :=
  { packetSize := 32, bytes := "Lat: 1.5, Lon: 2, Temp: 3, Hum: 4".toList,
    wifi := fun _ => true, http := httpOk }

/-! ## Notions used to state the properties -/

/-- The characters of `s` at the positions `a ≤ k < b`. -/
def slice (s : Str) (a b : Nat) : Str := (s.drop a).take (b - a)

/-- Every character is white space. -/
def isBlank (w : Str) : Bool := w.all isSpace

/-- No character is white space. -/
def noSpace (t : Str) : Bool := t.all (fun c => !isSpace c)

/-- The field text as the specification words it: the raw text with the
surrounding white space trimmed and then at most one trailing `,` removed. -/
def specFieldText (raw : Str) : Str :=
  if (trim raw).getLast? = some ',' then (trim raw).dropLast else trim raw

/-- A character of a decimal numeral: digit, sign, point or exponent marker. -/
def isNumChar (c : Char) : Bool :=
  c.isDigit || c = '+' || c = '-' || c = '.' || c = 'e' || c = 'E'

/-- A text made of numeral characters only; every decimal numeric literal is
one. -/
def isNumericText (l : Str) : Bool := l.all isNumChar

/-- A text made of separators `,` only. -/
def isCommas (s : Str) : Bool := s.all (fun c => c == ',')

/-- The field text `f` is the numeral `l`, optionally preceded by white space
and followed by separators and white space. -/
def FieldOf (f l : Str) : Prop :=
  ∃ w s w' : Str, f = w ++ (l ++ s) ++ w' ∧ isBlank w = true ∧ isCommas s = true ∧
    isBlank w' = true ∧ isNumericText l = true

/-- The last field text `f` is the numeral `l` with white space around it. -/
def LastFieldOf (f l : Str) : Prop :=
  ∃ w w' : Str, f = w ++ l ++ w' ∧ isBlank w = true ∧ isBlank w' = true ∧
    isNumericText l = true

/-- The string held by a JSON value, if it is a string. -/
def Json.asStr : Json → Option Str
  | .str s => some s
  | _ => none

/-- The rational value of a finite datum (`0` for an infinity or NaN). -/
def Fp.value : Fp → ℚ
  | .fin neg m e => (if neg then -1 else 1) * (m : ℚ) * (2 : ℚ) ^ e
  | _ => 0

/-- The text is the update payload of a reading that `extractSensorData`
accepted, read from some message with the reference parameters at `0.0`. -/
def AcceptedPayload (lib : ArduinoJson) (payload : Str) : Prop :=
  ∃ mensaje : Str,
    (extractSensorData mensaje zero zero zero zero).ok = true ∧
    payload = createUpdatePayload lib
      (extractSensorData mensaje zero zero zero zero).lat
      (extractSensorData mensaje zero zero zero zero).lon
      (extractSensorData mensaje zero zero zero zero).temp
      (extractSensorData mensaje zero zero zero zero).hum

/-- The invariant of `loop`: in state 2 the pending payload is that of an
accepted reading. -/
def PendingOk (lib : ArduinoJson) (m : Machine) : Prop :=
  m.state = 2 → AcceptedPayload lib m.output

/-! ## Messages used in the examples -/

/-- The expected format, from the comment in `extractSensorData`. -/
def msgScenario : Str := "Lat: 40.712800, Lon: -74.006000, Temp: 25.5, Hum: 60.5".toList

/-- A message whose latitude is zero and whose longitude is not. -/
def msgZeroLat : Str := "Lat: 0, Lon: 5, Temp: 22.0, Hum: 50.0".toList

/-- A message without the label `Hum:`. -/
def msgNoHum : Str := "Lat: 1, Lon: 2, Temp: 3".toList

/-- A message with `Lon:` before `Lat:`. -/
def msgSwapped : Str := "Lon: 2, Lat: 1, Temp: 3, Hum: 4".toList

/-- A message with a NUL byte in front of `Temp:`. -/
def msgNul : Str := "Lat: 1, Lon: 2, ".toList ++ [nul] ++ "Temp: 3, Hum: 4".toList

/-- A message with a comma inside the latitude and one after the humidity. -/
def msgCommas : Str := "Lat: 1,5, Lon: 2, Temp: 3, Hum: 4,".toList

/-! ## Lemmas: `String` operations -/

theorem findFirst_occurs (s pat : Str) (i : Nat) (h : findFirst s pat = some i) :
    pat <:+: s := by
  induction s generalizing i with
  | nil =>
    simp only [findFirst] at h
    split_ifs at h with he
    simp only [List.isEmpty_eq_true] at he
    subst he
    exact List.nil_infix
  | cons c s ih =>
    simp only [findFirst] at h
    split_ifs at h with hp
    · exact (List.isPrefixOf_iff_prefix.mp hp).isInfix
    · cases hs : findFirst s pat with
      | none => simp [hs] at h
      | some j => exact (ih j hs).trans (List.infix_cons (List.infix_refl s))

theorem findFirst_of_occurs (s pat : Str) (h : pat <:+: s) :
    ∃ i, findFirst s pat = some i := by
  induction s with
  | nil =>
    have : pat = [] := List.eq_nil_of_infix_nil h
    subst this
    exact ⟨0, by simp [findFirst]⟩
  | cons c s ih =>
    simp only [findFirst]
    by_cases hp : pat.isPrefixOf (c :: s) = true
    · exact ⟨0, by simp [hp]⟩
    · rcases List.infix_cons_iff.mp h with hpre | hin
      · exact absurd (List.isPrefixOf_iff_prefix.mpr hpre) hp
      · obtain ⟨j, hj⟩ := ih hin
        exact ⟨j + 1, by simp [hp, hj]⟩

theorem findFirst_prefix_drop (s pat : Str) (i : Nat) (h : findFirst s pat = some i) :
    pat <+: s.drop i := by
  induction s generalizing i with
  | nil =>
    simp only [findFirst] at h
    split_ifs at h with he
    simp only [List.isEmpty_eq_true] at he
    subst he
    exact List.nil_prefix
  | cons c s ih =>
    simp only [findFirst] at h
    split_ifs at h with hp
    · simp only [Option.some.injEq] at h
      subst h
      exact List.isPrefixOf_iff_prefix.mp hp
    · cases hs : findFirst s pat with
      | none => simp [hs] at h
      | some j =>
        simp only [hs, Option.map_some', Option.some.injEq] at h
        subst h
        exact ih j hs

theorem cstr_isPrefix_self (s : Str) : cstr s <+: s :=
  List.takeWhile_prefix _

theorem cstr_eq_take (s : Str) : cstr s = s.take (cstr s).length :=
  List.prefix_iff_eq_take.mp (cstr_isPrefix_self s)

theorem cstr_length_le (s : Str) : (cstr s).length ≤ s.length :=
  (cstr_isPrefix_self s).length_le

theorem nul_not_mem_cstr (s : Str) : nul ∉ cstr s := by
  intro h
  have := List.mem_takeWhile_imp h
  simp at this

theorem indexOf_absent (s pat : Str) (hp : cstr pat = pat) (h : ¬ pat <:+: s) :
    indexOf s pat = -1 := by
  unfold indexOf
  split_ifs
  · rfl
  · cases hs : strstr s pat with
    | none => rfl
    | some i =>
      unfold strstr at hs
      rw [hp] at hs
      exact absurd ((findFirst_occurs _ pat i hs).trans (cstr_isPrefix_self s).isInfix) h

theorem indexOf_present (s pat : Str) (hp : cstr pat = pat) (hne : pat ≠ [])
    (h : pat <:+: cstr s) : ∃ i : Nat, indexOf s pat = (i : Int) := by
  obtain ⟨i, hi⟩ := findFirst_of_occurs (cstr s) pat h
  refine ⟨i, ?_⟩
  unfold indexOf strstr
  have hlen : ¬ s.length ≤ 0 := by
    intro hl
    have : s = [] := List.length_eq_zero.mp (Nat.le_zero.mp hl)
    subst this
    exact hne (List.eq_nil_of_infix_nil h)
  simp [hlen, hp, hi]

theorem indexOf_found (s pat : Str) (h : indexOf s pat ≠ -1) :
    ∃ i : Nat, indexOf s pat = (i : Int) := by
  unfold indexOf at h ⊢
  split_ifs at h ⊢ with hl
  · exact absurd rfl h
  · cases hs : strstr s pat with
    | none => simp [hs] at h
    | some j => exact ⟨j, rfl⟩

theorem indexOf_prefix_drop (s pat : Str) (i : Nat) (hp : cstr pat = pat)
    (h : indexOf s pat = (i : Int)) : pat <+: (cstr s).drop i := by
  unfold indexOf at h
  split_ifs at h
  cases hs : strstr s pat with
  | none => simp [hs] at h
  | some j =>
    simp only [hs, Nat.cast_inj] at h
    subst h
    unfold strstr at hs
    rw [hp] at hs
    exact findFirst_prefix_drop _ pat j hs

theorem indexOf_add_le (s pat : Str) (i : Nat) (hp : cstr pat = pat) (hne : pat ≠ [])
    (h : indexOf s pat = (i : Int)) : i + pat.length ≤ (cstr s).length := by
  have hle := (indexOf_prefix_drop s pat i hp h).length_le
  rw [List.length_drop] at hle
  have hpos : 0 < pat.length := List.length_pos.mpr hne
  omega

theorem label_gap (s a b : Str) (i j : Nat) (ha : a <+: s.drop i) (hb : b <+: s.drop j)
    (hij : i < j)
    (hno : ∀ k < a.length, 0 < k → (a.drop k).head? ≠ b.head?) (hbne : b ≠ []) :
    i + a.length ≤ j := by
  by_contra hlt
  have hk : j - i < a.length := by omega
  obtain ⟨r, hr⟩ := ha
  obtain ⟨r', hr'⟩ := hb
  have hdrop : s.drop j = (s.drop i).drop (j - i) := by
    rw [List.drop_drop]; congr 1; omega
  rw [← hr, List.drop_append_of_le_length (by omega)] at hdrop
  have h1 : (s.drop j).head? = (a.drop (j - i)).head? := by
    rw [hdrop]
    cases hd : a.drop (j - i) with
    | nil =>
      have := congrArg List.length hd
      simp at this
      omega
    | cons x xs => rfl
  have h2 : (s.drop j).head? = b.head? := by
    rw [← hr']
    cases b with
    | nil => exact absurd rfl hbne
    | cons x xs => rfl
  exact hno (j - i) hk (by omega) (h1.symm.trans h2)

theorem substring_of_le (s : Str) (l r : Nat) (h : l ≤ r) :
    substring s l r = (s.drop l).take (r - l) := by
  unfold substring
  have hlr : ¬ l > r := by omega
  simp only [hlr, if_false]
  split_ifs with h1 h2
  · rw [List.drop_of_length_le (by omega)]; simp
  · rw [List.take_of_length_le (by rw [List.length_drop]),
      List.take_of_length_le (by rw [List.length_drop]; omega)]
  · rfl

theorem substringFrom_eq_drop (s : Str) (b : Nat) : substringFrom s b = s.drop b := by
  unfold substringFrom substring
  by_cases hb : b > s.length
  · simp only [hb, if_true]
    simp only [ge_iff_le, le_refl, if_true]
    rw [List.drop_of_length_le (by omega)]
  · simp only [hb, if_false]
    split_ifs with h1
    · rw [List.drop_of_length_le (by omega)]
    · rw [List.take_of_length_le (by rw [List.length_drop])]
    · rw [List.take_of_length_le (by rw [List.length_drop])]

theorem replaceAux_comma (s : Str) :
    replaceAux [','] [] 0 s = s.filter (fun c => c != ',') := by
  induction s with
  | nil => rfl
  | cons c s ih =>
    by_cases hc : c = ','
    · subst hc
      simp [replaceAux, List.isPrefixOf, ih]
    · simp [replaceAux, List.isPrefixOf, ih, hc, Ne.symm hc]

theorem replace_comma (s : Str) : replace s [','] [] = s.filter (fun c => c != ',') := by
  unfold replace
  split_ifs with h
  · rcases h with h | h
    · rw [List.length_eq_zero.mp h]; rfl
    · simp at h
  · exact replaceAux_comma s

theorem dropWhile_blank_append (w rest : Str) (hw : isBlank w = true) :
    (w ++ rest).dropWhile isSpace = rest.dropWhile isSpace := by
  induction w with
  | nil => rfl
  | cons c w ih =>
    simp only [isBlank, List.all_cons, Bool.and_eq_true] at hw
    simp only [List.cons_append, List.dropWhile_cons, hw.1, if_true]
    exact ih hw.2

theorem dropWhile_noSpace (t rest : Str) (ht : noSpace t = true) (hne : t ≠ []) :
    (t ++ rest).dropWhile isSpace = t ++ rest := by
  cases t with
  | nil => exact absurd rfl hne
  | cons c t =>
    simp only [noSpace, List.all_cons, Bool.and_eq_true, Bool.not_eq_true'] at ht
    simp [List.dropWhile_cons, ht.1]

theorem trim_padded (w t w' : Str) (hw : isBlank w = true) (hw' : isBlank w' = true)
    (ht : noSpace t = true) : trim (w ++ t ++ w') = t := by
  unfold trim
  rw [List.append_assoc, dropWhile_blank_append w _ hw]
  by_cases hne : t = []
  · subst hne
    have h := dropWhile_blank_append w' [] hw'
    simp only [List.append_nil] at h
    simp [h]
  · rw [dropWhile_noSpace t w' ht hne, List.reverse_append,
      dropWhile_blank_append w'.reverse _ (by simpa [isBlank] using hw')]
    have h := dropWhile_noSpace t.reverse [] (by simpa [noSpace] using ht) (by simpa using hne)
    simp only [List.append_nil] at h
    rw [h, List.reverse_reverse]

theorem filter_numeric_commas (l s : Str) (hl : isNumericText l = true)
    (hs : isCommas s = true) : (l ++ s).filter (fun c => c != ',') = l := by
  rw [List.filter_append]
  have h1 : l.filter (fun c => c != ',') = l := by
    rw [List.filter_eq_self]
    intro c hc
    have := (List.all_eq_true.mp hl) c hc
    by_cases hcc : c = ','
    · subst hcc; exact absurd this (by decide)
    · simpa using hcc
  have h2 : s.filter (fun c => c != ',') = [] := by
    rw [List.filter_eq_nil_iff]
    intro c hc
    have := (List.all_eq_true.mp hs) c hc
    simpa using this
  rw [h1, h2, List.append_nil]

theorem noSpace_numeric_commas (l s : Str) (hl : isNumericText l = true)
    (hs : isCommas s = true) : noSpace (l ++ s) = true := by
  simp only [noSpace, List.all_append, Bool.and_eq_true, List.all_eq_true]
  constructor
  · intro c hc
    have h := (List.all_eq_true.mp hl) c hc
    by_cases hsp : isSpace c = true
    · exfalso
      simp only [isSpace, Bool.or_eq_true, decide_eq_true_eq] at hsp
      rcases hsp with ((((h' | h') | h') | h') | h') | h' <;> subst h' <;>
        exact absurd h (by decide)
    · simpa using hsp
  · intro c hc
    have h := (List.all_eq_true.mp hs) c hc
    simp only [beq_iff_eq] at h
    subst h
    decide

/-! ## Theorems: `extractSensorData` -/

theorem mem_of_mem_trim (t : Str) (c : Char) (h : c ∈ trim t) : c ∈ t := by
  unfold trim at h
  rw [List.mem_reverse] at h
  have h1 := (List.dropWhile_suffix isSpace).subset h
  rw [List.mem_reverse] at h1
  exact (List.dropWhile_suffix isSpace).subset h1

theorem mem_cstr_of_mem_substring (s : Str) (l r : Nat) (c : Char)
    (hl : l ≤ (cstr s).length) (hr : r ≤ (cstr s).length) (h : c ∈ substring s l r) :
    c ∈ cstr s := by
  have key : ∀ a b : Nat, b ≤ (cstr s).length → c ∈ (s.drop a).take (b - a) → c ∈ cstr s := by
    intro a b hb hc
    rw [← List.drop_take] at hc
    have h1 : c ∈ s.take b := List.mem_of_mem_drop hc
    rw [cstr_eq_take s]
    exact (List.take_subset_take_left s hb) h1
  have hlen := cstr_length_le s
  unfold substring at h
  by_cases hlr : l > r
  · simp only [hlr, if_true] at h
    split_ifs at h with h1 h2
    · simp at h
    · omega
    · exact key r l hl h
  · simp only [hlr, if_false] at h
    split_ifs at h with h1 h2
    · simp at h
    · omega
    · exact key l r hr h

theorem replace_arguments_nul_free (message : Str)
    (h₁ : indexOf message labelLat ≠ -1) (h₂ : indexOf message labelLon ≠ -1)
    (h₃ : indexOf message labelTemp ≠ -1) (h₄ : indexOf message labelHum ≠ -1) :
    nul ∉ trim (substring message (indexOf message labelLat + 4).toNat
      (indexOf message labelLon).toNat) ∧
    nul ∉ trim (substring message (indexOf message labelLon + 4).toNat
      (indexOf message labelTemp).toNat) ∧
    nul ∉ trim (substring message (indexOf message labelTemp + 5).toNat
      (indexOf message labelHum).toNat) := by
  obtain ⟨i₁, e₁⟩ := indexOf_found _ _ h₁
  obtain ⟨i₂, e₂⟩ := indexOf_found _ _ h₂
  obtain ⟨i₃, e₃⟩ := indexOf_found _ _ h₃
  obtain ⟨i₄, e₄⟩ := indexOf_found _ _ h₄
  have b₁ := indexOf_add_le message labelLat i₁ (by decide) (by decide) e₁
  have b₂ := indexOf_add_le message labelLon i₂ (by decide) (by decide) e₂
  have b₃ := indexOf_add_le message labelTemp i₃ (by decide) (by decide) e₃
  have b₄ := indexOf_add_le message labelHum i₄ (by decide) (by decide) e₄
  have l₁ : labelLat.length = 4 := rfl
  have l₂ : labelLon.length = 4 := rfl
  have l₃ : labelTemp.length = 5 := rfl
  have l₄ : labelHum.length = 4 := rfl
  rw [e₁, e₂, e₃, e₄]
  refine ⟨?_, ?_, ?_⟩ <;> intro hmem <;>
    refine nul_not_mem_cstr message
      (mem_cstr_of_mem_substring message _ _ nul ?_ ?_ (mem_of_mem_trim _ _ hmem)) <;> omega

theorem extract_of_indices (message : Str) (lat lon temp hum : Fp) (i₁ i₂ i₃ i₄ : Nat)
    (h₁ : indexOf message labelLat = (i₁ : Int)) (h₂ : indexOf message labelLon = (i₂ : Int))
    (h₃ : indexOf message labelTemp = (i₃ : Int)) (h₄ : indexOf message labelHum = (i₄ : Int)) :
    extractSensorData message lat lon temp hum =
      { ok := (toFloat (latStr message)).ne0 && (toFloat (lonStr message)).ne0,
        lat := toFloat (latStr message), lon := toFloat (lonStr message),
        temp := toFloat (tempStr message), hum := toFloat (humStr message) } := by
  have hidx : ¬ (indexOf message labelLat = -1 ∨ indexOf message labelLon = -1 ∨
      indexOf message labelTemp = -1 ∨ indexOf message labelHum = -1) := by
    rw [h₁, h₂, h₃, h₄]
    omega
  unfold extractSensorData
  simp only [hidx, if_false]

theorem extract_all_labels (message : Str) (lat lon temp hum : Fp)
    (hLat : labelLat <:+: cstr message) (hLon : labelLon <:+: cstr message)
    (hTemp : labelTemp <:+: cstr message) (hHum : labelHum <:+: cstr message) :
    extractSensorData message lat lon temp hum =
      { ok := (toFloat (latStr message)).ne0 && (toFloat (lonStr message)).ne0,
        lat := toFloat (latStr message), lon := toFloat (lonStr message),
        temp := toFloat (tempStr message), hum := toFloat (humStr message) } := by
  obtain ⟨i₁, h₁⟩ := indexOf_present message labelLat (by decide) (by decide) hLat
  obtain ⟨i₂, h₂⟩ := indexOf_present message labelLon (by decide) (by decide) hLon
  obtain ⟨i₃, h₃⟩ := indexOf_present message labelTemp (by decide) (by decide) hTemp
  obtain ⟨i₄, h₄⟩ := indexOf_present message labelHum (by decide) (by decide) hHum
  have hidx : ¬ (indexOf message labelLat = -1 ∨ indexOf message labelLon = -1 ∨
      indexOf message labelTemp = -1 ∨ indexOf message labelHum = -1) := by
    rw [h₁, h₂, h₃, h₄]
    omega
  unfold extractSensorData
  simp only [hidx, if_false]

theorem texts_in_order (message : Str) (i₁ i₂ i₃ i₄ : Nat)
    (h₁ : indexOf message labelLat = (i₁ : Int)) (h₂ : indexOf message labelLon = (i₂ : Int))
    (h₃ : indexOf message labelTemp = (i₃ : Int)) (h₄ : indexOf message labelHum = (i₄ : Int))
    (h₁₂ : i₁ < i₂) (h₂₃ : i₂ < i₃) (h₃₄ : i₃ < i₄) :
    latStr message = (trim (slice message (i₁ + 4) i₂)).filter (fun c => c != ',') ∧
    lonStr message = (trim (slice message (i₂ + 4) i₃)).filter (fun c => c != ',') ∧
    tempStr message = (trim (slice message (i₃ + 5) i₄)).filter (fun c => c != ',') ∧
    humStr message = trim (message.drop (i₄ + 4)) := by
  have p₁ := indexOf_prefix_drop message labelLat i₁ (by decide) h₁
  have p₂ := indexOf_prefix_drop message labelLon i₂ (by decide) h₂
  have p₃ := indexOf_prefix_drop message labelTemp i₃ (by decide) h₃
  have p₄ := indexOf_prefix_drop message labelHum i₄ (by decide) h₄
  have g₁ : i₁ + 4 ≤ i₂ :=
    label_gap (cstr message) labelLat labelLon i₁ i₂ p₁ p₂ h₁₂ (by decide) (by decide)
  have g₂ : i₂ + 4 ≤ i₃ :=
    label_gap (cstr message) labelLon labelTemp i₂ i₃ p₂ p₃ h₂₃ (by decide) (by decide)
  have g₃ : i₃ + 5 ≤ i₄ :=
    label_gap (cstr message) labelTemp labelHum i₃ i₄ p₃ p₄ h₃₄ (by decide) (by decide)
  have e₁ : ((i₁ : Int) + 4).toNat = i₁ + 4 := by omega
  have e₂ : ((i₂ : Int) + 4).toNat = i₂ + 4 := by omega
  have e₃ : ((i₃ : Int) + 5).toNat = i₃ + 5 := by omega
  have e₄ : ((i₄ : Int) + 4).toNat = i₄ + 4 := by omega
  refine ⟨?_, ?_, ?_, ?_⟩
  · rw [latStr, h₁, h₂, e₁, Int.toNat_ofNat, substring_of_le _ _ _ g₁, replace_comma]; rfl
  · rw [lonStr, h₂, h₃, e₂, Int.toNat_ofNat, substring_of_le _ _ _ g₂, replace_comma]; rfl
  · rw [tempStr, h₃, h₄, e₃, Int.toNat_ofNat, substring_of_le _ _ _ g₃, replace_comma]; rfl
  · rw [humStr, h₄, e₄, substringFrom_eq_drop]

theorem extract_ok_ne0 (message : Str) (lat lon temp hum : Fp)
    (h : (extractSensorData message lat lon temp hum).ok = true) :
    (extractSensorData message lat lon temp hum).lat.ne0 = true ∧
      (extractSensorData message lat lon temp hum).lon.ne0 = true := by
  unfold extractSensorData at h ⊢
  by_cases hidx : indexOf message labelLat = -1 ∨ indexOf message labelLon = -1 ∨
      indexOf message labelTemp = -1 ∨ indexOf message labelHum = -1
  · simp [hidx] at h
  · simpa [hidx] using h

/-- C1, amended: for every message in which the four labels occur before the
first NUL byte (if there is one), the latitude and longitude assigned are
`toFloat` of `latStr` and `lonStr`, and `extractSensorData` returns `false` if
and only if at least one of the two equals 0.0. -/
theorem reject_iff_a_coordinate_zero (message : Str) (lat lon temp hum : Fp)
    (hLat : labelLat <:+: cstr message) (hLon : labelLon <:+: cstr message)
    (hTemp : labelTemp <:+: cstr message) (hHum : labelHum <:+: cstr message) :
    (extractSensorData message lat lon temp hum).lat = toFloat (latStr message) ∧
    (extractSensorData message lat lon temp hum).lon = toFloat (lonStr message) ∧
    ((extractSensorData message lat lon temp hum).ok = false ↔
      ((extractSensorData message lat lon temp hum).lat.isZero = true ∨
        (extractSensorData message lat lon temp hum).lon.isZero = true)) := by
  rw [extract_all_labels message lat lon temp hum hLat hLon hTemp hHum]
  refine ⟨rfl, rfl, ?_⟩
  simp only [Fp.isZero]
  cases (toFloat (latStr message)).ne0 <;> cases (toFloat (lonStr message)).ne0 <;> simp

/-- The amended C1 at `msgZeroLat`. -/
theorem reject_iff_a_coordinate_zero_witness :
    labelLat <:+: cstr msgZeroLat ∧
    labelLon <:+: cstr msgZeroLat ∧
    labelTemp <:+: cstr msgZeroLat ∧
    labelHum <:+: cstr msgZeroLat ∧
    ((extractSensorData msgZeroLat zero zero zero zero).lat = toFloat (latStr msgZeroLat) ∧
      (extractSensorData msgZeroLat zero zero zero zero).lon = toFloat (lonStr msgZeroLat) ∧
      ((extractSensorData msgZeroLat
          zero zero zero zero).ok = false ↔
        ((extractSensorData msgZeroLat
            zero zero zero zero).lat.isZero = true ∨
          (extractSensorData msgZeroLat
            zero zero zero zero).lon.isZero = true))) :=
  ⟨by decide, by decide, by decide, by decide,
    reject_iff_a_coordinate_zero msgZeroLat
      zero zero zero zero (by decide) (by decide) (by decide) (by decide)⟩

/-- C1, as stated, fails: the message `msgZeroLat`, `Lat: 0, Lon: 5, Temp: 22.0, Hum: 50.0`,
contains the four labels, its latitude extracts to 0.0 and its longitude to
5.0, and `extractSensorData` rejects it, although the two coordinates are not
both 0.0. Moreover `msgNul`, which contains the four labels but has a NUL byte
in front of `Temp:`, is rejected with the four outputs left as they were. -/
theorem one_zero_coordinate_rejected :
    labelLat <:+: msgZeroLat ∧
    labelLon <:+: msgZeroLat ∧
    labelTemp <:+: msgZeroLat ∧
    labelHum <:+: msgZeroLat ∧
    (extractSensorData msgZeroLat
      zero zero zero zero).ok = false ∧
    (extractSensorData msgZeroLat
      zero zero zero zero).lat.isZero = true ∧
    (extractSensorData msgZeroLat
      zero zero zero zero).lon.isZero = false ∧
    ¬ ((extractSensorData msgZeroLat
        zero zero zero zero).ok = false ↔
      ((extractSensorData msgZeroLat
          zero zero zero zero).lat.isZero = true ∧
        (extractSensorData msgZeroLat
          zero zero zero zero).lon.isZero = true)) ∧
    labelLat <:+: msgNul ∧ labelLon <:+: msgNul ∧
    labelTemp <:+: msgNul ∧ labelHum <:+: msgNul ∧
    extractSensorData msgNul (.fin false 7 0) (.fin false 5 0) (.fin false 3 0)
        (.fin false 1 0) =
      { ok := false, lat := .fin false 7 0, lon := .fin false 5 0,
        temp := .fin false 3 0, hum := .fin false 1 0 } := by
  decide

/-- C2: when at least one of the labels `Lat:`, `Lon:`, `Temp:`, `Hum:` does
not occur in the message, `extractSensorData` returns `false` and the four
reference parameters keep the values they had before the call. -/
theorem extract_missing_label (message : Str) (lat lon temp hum : Fp)
    (h : ¬ labelLat <:+: message ∨ ¬ labelLon <:+: message ∨
      ¬ labelTemp <:+: message ∨ ¬ labelHum <:+: message) :
    extractSensorData message lat lon temp hum =
      { ok := false, lat := lat, lon := lon, temp := temp, hum := hum } := by
  have hidx : indexOf message labelLat = -1 ∨ indexOf message labelLon = -1 ∨
      indexOf message labelTemp = -1 ∨ indexOf message labelHum = -1 := by
    rcases h with h | h | h | h
    · exact Or.inl (indexOf_absent _ _ (by decide) h)
    · exact Or.inr (Or.inl (indexOf_absent _ _ (by decide) h))
    · exact Or.inr (Or.inr (Or.inl (indexOf_absent _ _ (by decide) h)))
    · exact Or.inr (Or.inr (Or.inr (indexOf_absent _ _ (by decide) h)))
  unfold extractSensorData
  simp only [hidx, if_true]

/-- C2 at `msgNoHum`, with the reference parameters at 7, 5, 3 and 1. -/
theorem extract_missing_label_witness :
    (¬ labelLat <:+: msgNoHum ∨
      ¬ labelLon <:+: msgNoHum ∨
      ¬ labelTemp <:+: msgNoHum ∨
      ¬ labelHum <:+: msgNoHum) ∧
    extractSensorData msgNoHum
        (.fin false 7 0) (.fin false 5 0) (.fin false 3 0) (.fin false 1 0) =
      { ok := false, lat := .fin false 7 0, lon := .fin false 5 0,
        temp := .fin false 3 0, hum := .fin false 1 0 } :=
  ⟨by decide, extract_missing_label _ _ _ _ _ (by decide)⟩

/-- C3, amended: for every message in which `indexOf` finds the four labels
(they occur before any NUL byte) with the first occurrences of `Lat:`, `Lon:`,
`Temp:`, `Hum:` in this order, and in which the text between a label and the
next one is a numeral with optional white space around it and optional
separators `,` after it (white space only around the last numeral),
`extractSensorData` assigns to each field the value of the numeral that
follows its label, and accepts exactly when latitude and longitude are both
different from 0.0. -/
theorem extract_canonical_order (message : Str) (lat lon temp hum : Fp)
    (i₁ i₂ i₃ i₄ : Nat) (l₁ l₂ l₃ l₄ : Str)
    (h₁ : indexOf message labelLat = (i₁ : Int)) (h₂ : indexOf message labelLon = (i₂ : Int))
    (h₃ : indexOf message labelTemp = (i₃ : Int)) (h₄ : indexOf message labelHum = (i₄ : Int))
    (h₁₂ : i₁ < i₂) (h₂₃ : i₂ < i₃) (h₃₄ : i₃ < i₄)
    (f₁ : FieldOf (slice message (i₁ + 4) i₂) l₁)
    (f₂ : FieldOf (slice message (i₂ + 4) i₃) l₂)
    (f₃ : FieldOf (slice message (i₃ + 5) i₄) l₃)
    (f₄ : LastFieldOf (message.drop (i₄ + 4)) l₄) :
    extractSensorData message lat lon temp hum =
      { ok := (toFloat l₁).ne0 && (toFloat l₂).ne0,
        lat := toFloat l₁, lon := toFloat l₂, temp := toFloat l₃, hum := toFloat l₄ } := by
  obtain ⟨t₁, t₂, t₃, t₄⟩ := texts_in_order message i₁ i₂ i₃ i₄ h₁ h₂ h₃ h₄ h₁₂ h₂₃ h₃₄
  have field : ∀ f l : Str, FieldOf f l → (trim f).filter (fun c => c != ',') = l := by
    rintro f l ⟨w, s, w', hf, hw, hs, hw', hl⟩
    rw [hf, trim_padded w (l ++ s) w' hw hw' (noSpace_numeric_commas l s hl hs),
      filter_numeric_commas l s hl hs]
  have last : ∀ f l : Str, LastFieldOf f l → trim f = l := by
    rintro f l ⟨w, w', hf, hw, hw', hl⟩
    have hn := noSpace_numeric_commas l [] hl rfl
    rw [List.append_nil] at hn
    rw [hf, trim_padded w l w' hw hw' hn]
  rw [extract_of_indices message lat lon temp hum i₁ i₂ i₃ i₄ h₁ h₂ h₃ h₄, t₁, t₂, t₃, t₄,
    field _ _ f₁, field _ _ f₂, field _ _ f₃, last _ _ f₄]

/-- The amended C3 at `msgScenario`: the labels are found at 0, 16, 33 and 45. -/
theorem extract_canonical_order_witness :
    indexOf msgScenario labelLat
      = ((0 : Nat) : Int) ∧
    indexOf msgScenario labelLon
      = ((16 : Nat) : Int) ∧
    indexOf msgScenario labelTemp
      = ((33 : Nat) : Int) ∧
    indexOf msgScenario labelHum
      = ((45 : Nat) : Int) ∧
    extractSensorData msgScenario
        zero zero zero zero =
      { ok := (toFloat "40.712800".toList).ne0 && (toFloat "-74.006000".toList).ne0,
        lat := toFloat "40.712800".toList, lon := toFloat "-74.006000".toList,
        temp := toFloat "25.5".toList, hum := toFloat "60.5".toList } :=
  ⟨by decide, by decide, by decide, by decide,
    extract_canonical_order msgScenario
      zero zero zero zero 0 16 33 45
      "40.712800".toList "-74.006000".toList "25.5".toList "60.5".toList
      (by decide) (by decide) (by decide) (by decide) (by decide) (by decide) (by decide)
      ⟨[' '], [','], [' '], by decide, by decide, by decide, by decide, by decide⟩
      ⟨[' '], [','], [' '], by decide, by decide, by decide, by decide, by decide⟩
      ⟨[' '], [','], [' '], by decide, by decide, by decide, by decide, by decide⟩
      ⟨[' '], [], by decide, by decide, by decide, by decide⟩⟩

/-- C3, as stated, fails: in `msgSwapped`, `Lon: 2, Lat: 1, Temp: 3, Hum: 4`, every label
occurs once and is followed by a numeral, but the text converted for the
latitude is `Lon: 2 Lat:`, so the latitude is 0.0 and not 1, and the reading
is rejected. -/
theorem swapped_labels_misread :
    msgSwapped =
      labelLon ++ " 2, ".toList ++ labelLat ++ " 1, ".toList ++ labelTemp ++ " 3, ".toList ++
        labelHum ++ " 4".toList ∧
    latStr msgSwapped = "Lon: 2 Lat:".toList ∧
    (extractSensorData msgSwapped zero zero zero zero).lat
      = zero ∧
    (extractSensorData msgSwapped zero zero zero zero).lat
      ≠ toFloat "1".toList ∧
    (extractSensorData msgSwapped zero zero zero zero).ok
      = false := by
  decide

/-- C9, amended: for every message in which `extractSensorData` finds the four
labels (they occur before any NUL byte) with their first occurrences in
canonical order, the text `latStr`, `lonStr`, `tempStr` converted for latitude,
longitude and temperature is the text between the field's label and the next
label, trimmed of surrounding white space and with every `,` removed; the text
`humStr` converted for the humidity is the text from its label to the end of
input, trimmed, with no comma removed; and the four values assigned are
`toFloat` of these four texts. -/
theorem converted_texts_in_order (message : Str) (lat lon temp hum : Fp)
    (i₁ i₂ i₃ i₄ : Nat)
    (h₁ : indexOf message labelLat = (i₁ : Int)) (h₂ : indexOf message labelLon = (i₂ : Int))
    (h₃ : indexOf message labelTemp = (i₃ : Int)) (h₄ : indexOf message labelHum = (i₄ : Int))
    (h₁₂ : i₁ < i₂) (h₂₃ : i₂ < i₃) (h₃₄ : i₃ < i₄) :
    latStr message = (trim (slice message (i₁ + 4) i₂)).filter (fun c => c != ',') ∧
    lonStr message = (trim (slice message (i₂ + 4) i₃)).filter (fun c => c != ',') ∧
    tempStr message = (trim (slice message (i₃ + 5) i₄)).filter (fun c => c != ',') ∧
    humStr message = trim (message.drop (i₄ + 4)) ∧
    extractSensorData message lat lon temp hum =
      { ok := (toFloat (latStr message)).ne0 && (toFloat (lonStr message)).ne0,
        lat := toFloat (latStr message), lon := toFloat (lonStr message),
        temp := toFloat (tempStr message), hum := toFloat (humStr message) } := by
  obtain ⟨t₁, t₂, t₃, t₄⟩ := texts_in_order message i₁ i₂ i₃ i₄ h₁ h₂ h₃ h₄ h₁₂ h₂₃ h₃₄
  exact ⟨t₁, t₂, t₃, t₄, extract_of_indices message lat lon temp hum i₁ i₂ i₃ i₄ h₁ h₂ h₃ h₄⟩

/-- The amended C9 at `msgCommas`: the labels are found at 0, 10, 18 and 27. -/
theorem converted_texts_in_order_witness :
    indexOf msgCommas labelLat = ((0 : Nat) : Int) ∧
    indexOf msgCommas labelLon = ((10 : Nat) : Int) ∧
    indexOf msgCommas labelTemp = ((18 : Nat) : Int) ∧
    indexOf msgCommas labelHum = ((27 : Nat) : Int) ∧
    (latStr msgCommas = (trim (slice msgCommas (0 + 4) 10)).filter (fun c => c != ',') ∧
      lonStr msgCommas = (trim (slice msgCommas (10 + 4) 18)).filter (fun c => c != ',') ∧
      tempStr msgCommas = (trim (slice msgCommas (18 + 5) 27)).filter (fun c => c != ',') ∧
      humStr msgCommas = trim (msgCommas.drop (27 + 4)) ∧
      extractSensorData msgCommas zero zero zero zero =
        { ok := (toFloat (latStr msgCommas)).ne0 && (toFloat (lonStr msgCommas)).ne0,
          lat := toFloat (latStr msgCommas), lon := toFloat (lonStr msgCommas),
          temp := toFloat (tempStr msgCommas), hum := toFloat (humStr msgCommas) }) :=
  ⟨by decide, by decide, by decide, by decide,
    converted_texts_in_order msgCommas zero zero zero zero
      0 10 18 27 (by decide) (by decide) (by decide) (by decide)
      (by decide) (by decide) (by decide)⟩

/-- C9, as stated, fails: in `msgCommas`, `Lat: 1,5, Lon: 2, Temp: 3, Hum: 4,`, the labels
are in canonical order; the text between `Lat:` and `Lon:` is ` 1,5, `, for
which the specification's rule gives `1,5`, but the text converted is `15`
(another number); and the text converted for the humidity is `4,`, its
trailing comma kept. -/
theorem commas_all_removed_but_kept_for_hum :
    indexOf msgCommas labelLat = 0 ∧
    indexOf msgCommas labelLon = 10 ∧
    indexOf msgCommas labelTemp = 18 ∧
    indexOf msgCommas labelHum = 27 ∧
    slice msgCommas 4 10 = " 1,5, ".toList ∧
    specFieldText " 1,5, ".toList = "1,5".toList ∧
    latStr msgCommas = "15".toList ∧
    (extractSensorData msgCommas zero zero zero zero).lat
      = toFloat "15".toList ∧
    toFloat "15".toList ≠ toFloat (specFieldText " 1,5, ".toList) ∧
    msgCommas.drop 31 = " 4,".toList ∧
    specFieldText " 4,".toList = "4".toList ∧
    humStr msgCommas = "4,".toList := by
  decide

/-! ## Theorems: the scenario of the specification -/

set_option maxRecDepth 20000

/-- C8, amended: for the input `msgScenario`,
`Lat: 40.712800, Lon: -74.006000, Temp: 25.5, Hum: 60.5`, the reading is
accepted with the `float` values 1334077/32768 (within 10⁻⁶ of 40.7128),
-4850057/65536 (within 10⁻⁵ of -74.006), 25.5 and 60.5, and the location value
of the update document is `40.712799,-74.005997`, six decimals per
coordinate; `createUpdatePayload` is the serialisation of that document. -/
theorem scenario_reading_and_location :
    extractSensorData msgScenario
        zero zero zero zero =
      { ok := true, lat := .fin false 1334077 (-15), lon := .fin true 4850057 (-16),
        temp := .fin false 51 (-1), hum := .fin false 121 (-1) } ∧
    Fp.value (.fin false 1334077 (-15)) = 1334077 / 32768 ∧
    |Fp.value (.fin false 1334077 (-15)) - 40.7128| < 1 / 1000000 ∧
    Fp.value (.fin true 4850057 (-16)) = -4850057 / 65536 ∧
    |Fp.value (.fin true 4850057 (-16)) - (-74.006)| < 1 / 100000 ∧
    Fp.value (.fin false 51 (-1)) = 25.5 ∧
    Fp.value (.fin false 121 (-1)) = 60.5 ∧
    (((createUpdateDoc (.fin false 1334077 (-15)) (.fin true 4850057 (-16))
        (.fin false 51 (-1)) (.fin false 121 (-1))).get "location".toList).get
          "value".toList).asStr = some "40.712799,-74.005997".toList ∧
    (∀ lib : ArduinoJson,
      createUpdatePayload lib (.fin false 1334077 (-15)) (.fin true 4850057 (-16))
          (.fin false 51 (-1)) (.fin false 121 (-1)) =
        lib.serializeJson (createUpdateDoc (.fin false 1334077 (-15))
          (.fin true 4850057 (-16)) (.fin false 51 (-1)) (.fin false 121 (-1)))) := by
  refine ⟨by decide, ?_, ?_, ?_, ?_, ?_, ?_, by decide, fun _ => rfl⟩
  · norm_num [Fp.value]
  · norm_num [Fp.value, abs_lt]
  · norm_num [Fp.value]
  · norm_num [Fp.value, abs_lt]
  · norm_num [Fp.value]
  · norm_num [Fp.value]

/-- C8, as stated, fails: for the scenario input the reading is accepted, but
the location value of the update document is `40.712799,-74.005997` and not
`40.712800,-74.006000`. -/
theorem location_value_not_reproduced :
    (extractSensorData msgScenario
      zero zero zero zero).ok = true ∧
    (((createUpdateDoc
        (extractSensorData msgScenario
          zero zero zero zero).lat
        (extractSensorData msgScenario
          zero zero zero zero).lon
        (extractSensorData msgScenario
          zero zero zero zero).temp
        (extractSensorData msgScenario
          zero zero zero zero).hum).get "location".toList).get "value".toList).asStr
      = some "40.712799,-74.005997".toList ∧
    "40.712799,-74.005997".toList ≠ "40.712800,-74.006000".toList := by
  decide

/-! ## Theorems: `sendToOrion` -/

/-- C4: `sendToOrion` returns `true` exactly when the PATCH status is 204, or
the PATCH status is 404 and the status of the POST that follows is 201. -/
theorem sendToOrion_success_iff (lib : ArduinoJson) (http : Http) (updatePayload : Str) :
    (sendToOrion lib http updatePayload).1 = true ↔
      (http.patchStatus updateURL updatePayload = 204 ∨
        (http.patchStatus updateURL updatePayload = 404 ∧
          http.postStatus orionURL (entityJson lib updatePayload) = 201)) := by
  unfold sendToOrion
  by_cases h204 : http.patchStatus updateURL updatePayload = 204
  · simp [h204]
  · by_cases h404 : http.patchStatus updateURL updatePayload = 404
    · by_cases h201 : http.postStatus orionURL (entityJson lib updatePayload) = 201
      · simp [h404, h201]
      · simp [h404, h201]
    · simp [h204, h404]

/-- C5: one call of `sendToOrion` issues the PATCH request to
`orionURL/sensorId/attrs` with the update payload as body, followed by exactly
one POST request to `orionURL` when that PATCH returned 404, and by no request
at all on any other status (204 included). -/
theorem sendToOrion_requests (lib : ArduinoJson) (http : Http) (updatePayload : Str) :
    requests (sendToOrion lib http updatePayload).2 =
        { method := .patch, url := orionURL ++ ['/'] ++ sensorId ++ "/attrs".toList,
          body := updatePayload } ::
          (if http.patchStatus updateURL updatePayload = 404 then
            [{ method := .post, url := orionURL, body := entityJson lib updatePayload }]
           else []) := by
  have hurl : orionURL ++ ['/'] ++ sensorId ++ "/attrs".toList = updateURL := rfl
  rw [hurl]
  unfold sendToOrion
  by_cases h204 : http.patchStatus updateURL updatePayload = 204
  · simp [h204, requests, requestsFrom, patchCalls]
  · by_cases h404 : http.patchStatus updateURL updatePayload = 404
    · by_cases h201 : http.postStatus orionURL (entityJson lib updatePayload) = 201
      · simp [h404, h201, requests, requestsFrom, patchCalls]
      · simp [h404, h201, requests, requestsFrom, patchCalls]
    · simp [h204, h404, requests, requestsFrom, patchCalls]

/-! ## Theorems: the state machine -/

theorem loop_state_cases (lib : ArduinoJson) (env : Env) (m : Machine) :
    (loop lib env m).1.state =
      (if m.state = 1 then
        (if env.packetSize = 0 then 1
         else if (extractSensorData env.bytes zero zero zero zero).ok = true then 2 else 3)
       else if m.state = 2 then 3
       else if m.state = 3 then 1
       else 1) := by
  unfold loop
  by_cases h1 : m.state = 1
  · by_cases hp : env.packetSize = 0
    · simp [h1, hp]
    · by_cases hok : (extractSensorData env.bytes zero zero zero zero).ok = true
      · simp [h1, hp, hok]
      · simp [h1, hp, hok]
  · by_cases h2 : m.state = 2
    · by_cases hw : env.wifi (if env.wifi 0 = true then 1 else connectWiFi env.wifi 1) = true
      · simp [h2, hw]
      · simp [h2, hw]
    · by_cases h3 : m.state = 3
      · simp [h3]
      · simp [h1, h2, h3]

theorem loop_state_mem (lib : ArduinoJson) (env : Env) (m : Machine) :
    (loop lib env m).1.state = 1 ∨ (loop lib env m).1.state = 2 ∨
      (loop lib env m).1.state = 3 := by
  rw [loop_state_cases]
  split_ifs <;> simp

theorem run_state_mem (lib : ArduinoJson) (envs : List Env) (m : Machine)
    (h : m.state = 1 ∨ m.state = 2 ∨ m.state = 3) :
    (run lib envs m).state = 1 ∨ (run lib envs m).state = 2 ∨ (run lib envs m).state = 3 := by
  induction envs generalizing m with
  | nil => simpa [run] using h
  | cons env envs ih => exact ih _ (loop_state_mem lib env m)

/-- C7: one pass of `loop` moves the state variable as follows. From 1
(RECEIVE): to 1 when no packet is available, to 2 (SEND) when a packet is
available and `extractSensorData` accepts it, to 3 (WAIT) when it rejects it;
from 2 to 3 whatever the connectivity and the outcome of the send; from 3 to 1;
from any other value to 1. Every state reached from state 1 is 1, 2 or 3. -/
theorem loop_transition (lib : ArduinoJson) :
    (∀ (env : Env) (m : Machine),
      (loop lib env m).1.state =
        (if m.state = 1 then
          (if env.packetSize = 0 then 1
           else if (extractSensorData env.bytes zero zero zero zero).ok = true then 2 else 3)
         else if m.state = 2 then 3
         else if m.state = 3 then 1
         else 1)) ∧
    (∀ (output : Str) (envs : List Env),
      (run lib envs { state := 1, output := output }).state = 1 ∨
      (run lib envs { state := 1, output := output }).state = 2 ∨
      (run lib envs { state := 1, output := output }).state = 3) :=
  ⟨loop_state_cases lib, fun _ envs => run_state_mem lib envs _ (Or.inl rfl)⟩

/-- C6, amended: in the SEND state `connectWiFi` is invoked exactly once when
the WiFi status reads down at entry and not at all when it reads up; then
`sendToOrion` is called exactly once, with the pending payload, when the status
read after that is connected, and is not called when it is not. -/
theorem loop_send_calls (lib : ArduinoJson) (env : Env) (m : Machine) (h : m.state = 2) :
    (loop lib env m).2 =
      (if env.wifi 0 = true then [] else [Call.connectWiFi]) ++
      (if env.wifi (if env.wifi 0 = true then 1 else connectWiFi env.wifi 1) = true then
        [Call.sendToOrion m.output (sendToOrion lib env.http m.output)]
       else []) := by
  unfold loop
  by_cases hw : env.wifi (if env.wifi 0 = true then 1 else connectWiFi env.wifi 1) = true
  · simp [h, hw]
  · simp [h, hw]

/-- The amended C6 at a SEND pass in which the reconnect succeeds. -/
theorem loop_send_calls_witness :
    ({ state := 2, output := "pending".toList } : Machine).state = 2 ∧
    (loop plainJson envReconnects { state := 2, output := "pending".toList }).2 =
      (if envReconnects.wifi 0 = true then [] else [Call.connectWiFi]) ++
      (if envReconnects.wifi
          (if envReconnects.wifi 0 = true then 1 else connectWiFi envReconnects.wifi 1) = true then
        [Call.sendToOrion "pending".toList
          (sendToOrion plainJson envReconnects.http "pending".toList)]
       else []) :=
  ⟨rfl, loop_send_calls plainJson envReconnects { state := 2, output := "pending".toList } rfl⟩

/-- C6, as stated, fails: with the WiFi down at SEND entry and still down after
the reconnect, the pass calls `connectWiFi` once and never calls
`sendToOrion`. -/
theorem send_skipped_when_reconnect_fails :
    (loop plainJson envWifiDown { state := 2, output := "pending".toList }).2
        = [Call.connectWiFi] ∧
      ((loop plainJson envWifiDown { state := 2, output := "pending".toList }).2.filter
        Call.isSend).length = 0 := by
  constructor <;> rfl

/-! ## Theorems: the pending payload -/

theorem run_append (lib : ArduinoJson) (envs₁ envs₂ : List Env) (m : Machine) :
    run lib (envs₁ ++ envs₂) m = run lib envs₂ (run lib envs₁ m) := by
  induction envs₁ generalizing m with
  | nil => rfl
  | cons env envs ih => simp [run, ih]

theorem loop_to_send (lib : ArduinoJson) (env : Env) (m : Machine)
    (h : (loop lib env m).1.state = 2) :
    m.state = 1 ∧ env.packetSize ≠ 0 ∧
      (extractSensorData env.bytes zero zero zero zero).ok = true ∧
      (loop lib env m).1.output = createUpdatePayload lib
        (extractSensorData env.bytes zero zero zero zero).lat
        (extractSensorData env.bytes zero zero zero zero).lon
        (extractSensorData env.bytes zero zero zero zero).temp
        (extractSensorData env.bytes zero zero zero zero).hum := by
  have hs := loop_state_cases lib env m
  rw [h] at hs
  by_cases h1 : m.state = 1
  · by_cases hp : env.packetSize = 0
    · simp [h1, hp] at hs
    · by_cases hok : (extractSensorData env.bytes zero zero zero zero).ok = true
      · refine ⟨h1, hp, hok, ?_⟩
        unfold loop
        simp [h1, hp, hok]
      · simp [h1, hp, hok] at hs
  · exfalso
    simp only [h1, if_false] at hs
    split_ifs at hs <;> omega

theorem loop_output_unchanged (lib : ArduinoJson) (env : Env) (m : Machine)
    (h : ¬ (m.state = 1 ∧ env.packetSize ≠ 0 ∧
      (extractSensorData env.bytes zero zero zero zero).ok = true)) :
    (loop lib env m).1.output = m.output := by
  unfold loop
  by_cases h1 : m.state = 1
  · by_cases hp : env.packetSize = 0
    · simp [h1, hp]
    · by_cases hok : (extractSensorData env.bytes zero zero zero zero).ok = true
      · exact absurd ⟨h1, hp, hok⟩ h
      · simp [h1, hp, hok]
  · simp only [h1, if_false]
    split_ifs <;> rfl

theorem pendingOk_loop (lib : ArduinoJson) (env : Env) (m : Machine) :
    PendingOk lib (loop lib env m).1 := by
  intro h
  obtain ⟨_, _, hok, hout⟩ := loop_to_send lib env m h
  exact ⟨env.bytes, hok, hout⟩

theorem loop_send_payload (lib : ArduinoJson) (env : Env) (m : Machine)
    (payload : Str) (result : Bool × List HttpCall)
    (h : Call.sendToOrion payload result ∈ (loop lib env m).2) :
    m.state = 2 ∧ payload = m.output := by
  unfold loop at h
  by_cases h1 : m.state = 1
  · simp only [h1, if_true] at h
    split_ifs at h <;> simp at h
  · by_cases h2 : m.state = 2
    · refine ⟨h2, ?_⟩
      simp only [h2] at h
      split_ifs at h <;> simp at h <;> exact h.1
    · simp only [h1, h2, if_false] at h
      split_ifs at h <;> simp at h

theorem runCalls_send_payload (lib : ArduinoJson) (envs : List Env) (m : Machine)
    (hm : PendingOk lib m) (payload : Str) (result : Bool × List HttpCall)
    (h : Call.sendToOrion payload result ∈ runCalls lib envs m) :
    AcceptedPayload lib payload := by
  induction envs generalizing m with
  | nil => simp [runCalls] at h
  | cons env envs ih =>
    simp only [runCalls, List.mem_append] at h
    rcases h with h | h
    · obtain ⟨h2, hp⟩ := loop_send_payload lib env m payload result h
      rw [hp]
      exact hm h2
    · exact ih _ (pendingOk_loop lib env m) h

theorem acceptedPayload_ne (lib : ArduinoJson) (payload : Str)
    (h : AcceptedPayload lib payload) : payload ≠ [] := by
  obtain ⟨_, _, hp⟩ := h
  rw [hp]
  exact lib.serialize_ne _

/-- C10: in every run of `loop` from the initial configuration (state 1, empty
`output`): when the state is 2, the last pass was a RECEIVE pass whose packet
`extractSensorData` accepted, with latitude and longitude different from 0.0,
and `output` is `createUpdatePayload` of that reading; every pass other than a
RECEIVE pass with an accepted packet leaves `output` unchanged; and every
payload passed to `sendToOrion` is non-empty and is the payload of an accepted
reading. -/
theorem pending_payload_invariant (lib : ArduinoJson) :
    (∀ envs : List Env, (run lib envs Machine.init).state = 2 →
      ∃ (before : List Env) (env : Env),
        envs = before ++ [env] ∧
        (run lib before Machine.init).state = 1 ∧
        env.packetSize ≠ 0 ∧
        (extractSensorData env.bytes zero zero zero zero).ok = true ∧
        (extractSensorData env.bytes zero zero zero zero).lat.ne0 = true ∧
        (extractSensorData env.bytes zero zero zero zero).lon.ne0 = true ∧
        (run lib envs Machine.init).output = createUpdatePayload lib
          (extractSensorData env.bytes zero zero zero zero).lat
          (extractSensorData env.bytes zero zero zero zero).lon
          (extractSensorData env.bytes zero zero zero zero).temp
          (extractSensorData env.bytes zero zero zero zero).hum) ∧
    (∀ (env : Env) (m : Machine),
      ¬ (m.state = 1 ∧ env.packetSize ≠ 0 ∧
        (extractSensorData env.bytes zero zero zero zero).ok = true) →
      (loop lib env m).1.output = m.output) ∧
    (∀ (envs : List Env) (payload : Str) (result : Bool × List HttpCall),
      Call.sendToOrion payload result ∈ runCalls lib envs Machine.init →
      payload ≠ [] ∧ AcceptedPayload lib payload) := by
  refine ⟨?_, loop_output_unchanged lib, ?_⟩
  · intro envs h
    rcases List.eq_nil_or_concat envs with hnil | ⟨before, env, hcat⟩
    · subst hnil
      simp [run, Machine.init] at h
    · rw [List.concat_eq_append] at hcat
      subst hcat
      have hrun : run lib (before ++ [env]) Machine.init =
          (loop lib env (run lib before Machine.init)).1 := by
        rw [run_append]; rfl
      rw [hrun] at h ⊢
      obtain ⟨h1, hp, hok, hout⟩ := loop_to_send lib env _ h
      obtain ⟨hlat, hlon⟩ := extract_ok_ne0 _ _ _ _ _ hok
      exact ⟨before, env, rfl, h1, hp, hok, hlat, hlon, hout⟩
  · intro envs payload result h
    have hacc := runCalls_send_payload lib envs Machine.init
      (fun h2 => by simp [Machine.init] at h2) payload result h
    exact ⟨acceptedPayload_ne lib payload hacc, hacc⟩

/-- C10 at the run of one pass that receives an accepted packet. -/
theorem pending_payload_invariant_witness :
    (run plainJson [envPacket] Machine.init).state = 2 ∧
    ∃ (before : List Env) (env : Env),
      [envPacket] = before ++ [env] ∧
      (run plainJson before Machine.init).state = 1 ∧
      env.packetSize ≠ 0 ∧
      (extractSensorData env.bytes zero zero zero zero).ok = true ∧
      (extractSensorData env.bytes zero zero zero zero).lat.ne0 = true ∧
      (extractSensorData env.bytes zero zero zero zero).lon.ne0 = true ∧
      (run plainJson [envPacket] Machine.init).output = createUpdatePayload plainJson
        (extractSensorData env.bytes zero zero zero zero).lat
        (extractSensorData env.bytes zero zero zero zero).lon
        (extractSensorData env.bytes zero zero zero zero).temp
        (extractSensorData env.bytes zero zero zero zero).hum :=
  ⟨by decide, (pending_payload_invariant plainJson).1 [envPacket] (by decide)⟩

end Receptor
